import Mathlib

/-!
Verification development for the openclaw-smart-router engine.

Each definition is a shallow embedding of the corresponding TypeScript
function from the repository.  JavaScript numbers are modelled as `ℚ`
(all arithmetic appearing in the embedded code paths is exact decimal
arithmetic, so the rational model agrees with the float semantics on
the inputs considered); token counts are modelled as `ℕ`; millisecond
timestamps as `ℚ`.  External file stores are modelled as explicit state
records threaded through the functions that read or write them.
-/

namespace SmartRouter

/-! ### String utilities (JS `includes`, `toLowerCase`, `split`) -/

/-- Does the first list occur at the head of the second? -/
def startsWithChars : List Char → List Char → Bool
  | [], _ => true
  | _ :: _, [] => false
  | a :: as, b :: bs => a == b && startsWithChars as bs

/-- JS `String.prototype.includes`, on character lists: does `needle`
occur contiguously inside `hay`? -/
def hasSubstringAux (needle : List Char) : List Char → Bool
  | [] => startsWithChars needle []
  | c :: rest => startsWithChars needle (c :: rest) || hasSubstringAux needle rest

/-- JS `s.includes(sub)`. -/
def jsIncludes (s sub : String) : Bool :=
  hasSubstringAux sub.data s.data

/-- JS `String.prototype.toLowerCase` (ASCII-adequate, as used by the
keyword matching in the source). -/
def jsToLowerCase (s : String) : String :=
  ⟨s.data.map Char.toLower⟩

/-! ### Task classification (`src/capabilities/matcher.ts`, `classifyPrompt`) -/

inductive TaskCapability
  | coding | reasoning | creative | instruction | context | speed
deriving DecidableEq

inductive ContextLength
  | short | medium | long
deriving DecidableEq

structure TaskProfile where
  primaryCapability : TaskCapability
  secondaryCapabilities : Option (List TaskCapability)
  contextLength : ContextLength
  latencySensitive : Bool
  qualityThreshold : ℚ
deriving DecidableEq

/-- The coding-signal keyword bucket from `classifyPrompt`. -/
def codingSignals : List String :=
  ["code", "function", "class", "implement", "debug", "fix bug",
   "write a script", "api", "endpoint", "database", "sql",
   "typescript", "javascript", "python", "```"]

/-- The reasoning-signal keyword bucket from `classifyPrompt`. -/
def reasoningSignals : List String :=
  ["analyze", "design", "architect", "plan", "strategy", "evaluate",
   "compare", "consider", "trade-off", "pros and cons", "reasoning",
   "think through", "step by step"]

/-- The creative-signal keyword bucket from `classifyPrompt`. -/
def creativeSignals : List String :=
  ["write", "story", "blog", "article", "creative", "brainstorm",
   "ideas", "suggest", "generate content", "marketing"]

/-- The simple-signal keyword bucket from `classifyPrompt`. -/
def simpleSignals : List String :=
  ["summarize", "list", "check", "status", "count", "format",
   "convert", "extract", "parse"]

/-- Number of bucket keywords occurring in the lower-cased prompt
(one count per keyword, as in the source's `includes` loop). -/
def countSignals (signals : List String) (lower : String) : ℕ :=
  signals.countP (fun sig => jsIncludes lower sig)

/-- Bucket score of the coding signals for a prompt. -/
def codingScoreOf (prompt : String) : ℕ :=
  countSignals codingSignals (jsToLowerCase prompt)

/-- Bucket score of the reasoning signals for a prompt. -/
def reasoningScoreOf (prompt : String) : ℕ :=
  countSignals reasoningSignals (jsToLowerCase prompt)

/-- Bucket score of the creative signals for a prompt. -/
def creativeScoreOf (prompt : String) : ℕ :=
  countSignals creativeSignals (jsToLowerCase prompt)

/-- Bucket score of the simple signals for a prompt. -/
def simpleScoreOf (prompt : String) : ℕ :=
  countSignals simpleSignals (jsToLowerCase prompt)

/-- `Math.max(codingScore, reasoningScore, creativeScore, simpleScore)`. -/
def maxBucket (codingScore reasoningScore creativeScore simpleScore : ℕ) : ℕ :=
  max (max codingScore reasoningScore) (max creativeScore simpleScore)

/-- The primary-capability / quality-threshold selection chain of
`classifyPrompt` (matcher.ts lines 115-133), as a function of the four
bucket scores.  The initial values `instruction` / `0.7` survive when
no branch of the if/else chain fires. -/
def classifyCapThreshold (codingScore reasoningScore creativeScore simpleScore : ℕ) :
    TaskCapability × ℚ :=
  let maxScore := maxBucket codingScore reasoningScore creativeScore simpleScore
  if maxScore = 0 then (.instruction, 0.6)
  else if simpleScore = maxScore ∧ 2 ≤ simpleScore then (.instruction, 0.4)
  else if codingScore = maxScore then (.coding, 0.8)
  else if reasoningScore = maxScore then (.reasoning, 0.75)
  else if creativeScore = maxScore then (.creative, 0.6)
  else (.instruction, 0.7)

/-- Shallow embedding of `classifyPrompt` (matcher.ts lines 26-156).
The source leaves `secondaryCapabilities` unset (`undefined`),
modelled as `none`. -/
def classifyPrompt (prompt : String) : TaskProfile :=
  let lower := jsToLowerCase prompt
  let cap_thr := classifyCapThreshold (codingScoreOf prompt) (reasoningScoreOf prompt)
    (creativeScoreOf prompt) (simpleScoreOf prompt)
  let contextLength : ContextLength :=
    if prompt.length < 500 then .short
    else if 5000 < prompt.length then .long
    else .medium
  let latencySensitive :=
    jsIncludes lower "interactive" || jsIncludes lower "real-time" ||
    jsIncludes lower "quick" || jsIncludes lower "fast response"
  { primaryCapability := cap_thr.1
    secondaryCapabilities := none
    contextLength := contextLength
    latencySensitive := latencySensitive
    qualityThreshold := cap_thr.2 }

/-! ### Usage ledger state and the exhaustion predictor
(`src/quota/predictor.ts`, `src/quota/tracker.ts`) -/

/-- A usage-ledger entry (types.ts `UsageRecord`).  The optional
`cost`, `source` and `sourceId` fields are not read by any embedded
code path and are omitted. -/
structure UsageRecord where
  timestamp : ℚ
  provider : String
  model : String
  tokensIn : ℕ
  tokensOut : ℕ
deriving DecidableEq

/-- A per-provider quota counter (types.ts `RouterState.quotas` entry). -/
structure QuotaEntry where
  used : ℕ
  limit : ℕ
  lastReset : ℚ
  nextReset : ℚ
deriving DecidableEq

/-- The part of `RouterState` read by the predictor and tracker.
The JS record of quotas is modelled as an association list. -/
structure RouterState where
  quotas : List (String × QuotaEntry)
  usageHistory : List UsageRecord
deriving DecidableEq

inductive Trend
  | increasing | stable | decreasing
deriving DecidableEq

/-- The recommendation strings of `predict` are presentation-only; each
branch is modelled by one constructor. -/
inductive Recommendation
  | noTracking | exhausted | noRecentUsage | resetsBeforeExhaustion
  | critical | warning | monitor | onTrack
deriving DecidableEq

structure ExhaustionPrediction where
  provider : String
  willExhaust : Bool
  predictedExhaustionTime : Option ℚ
  hoursUntilExhaustion : Option ℚ
  confidence : ℚ
  trend : Trend
  recommendation : Recommendation
deriving DecidableEq

/-- `r.tokensIn + r.tokensOut`. -/
def recordTokens (r : UsageRecord) : ℕ := r.tokensIn + r.tokensOut

/-- Total tokens over a record list (the `reduce` sums in the source). -/
def totalTokens (records : List UsageRecord) : ℕ :=
  (records.map recordTokens).sum

/-- `history.filter(r => r.provider === provider && r.timestamp >= cutoff)`. -/
def recordsInWindow (history : List UsageRecord) (provider : String) (cutoff : ℚ) :
    List UsageRecord :=
  history.filter (fun r => r.provider == provider && decide (cutoff ≤ r.timestamp))

/-- `Math.min(...records.map(r => r.timestamp))` on a nonempty list
(the source only evaluates it on nonempty `records`). -/
def earliestTimestamp : List UsageRecord → ℚ
  | [] => 0
  | r :: rs => rs.foldl (fun acc x => min acc x.timestamp) r.timestamp

structure UsageRate where
  tokensPerHour : ℚ
  confidence : ℚ
deriving DecidableEq

/-- Shallow embedding of `QuotaPredictor.calculateUsageRate`
(predictor.ts lines 142-180).  `Date.now()` is the explicit `now`. -/
def calculateUsageRate (state : RouterState) (now : ℚ) (provider : String) : UsageRate :=
  let windowMs : ℚ := 24 * 60 * 60 * 1000
  let cutoff := now - windowMs
  let records := recordsInWindow state.usageHistory provider cutoff
  if records.isEmpty then ⟨0, 0⟩
  else
    let total : ℚ := totalTokens records
    let timeSpanHours := (now - earliestTimestamp records) / (60 * 60 * 1000)
    if timeSpanHours < 0.1 then ⟨0, 0.1⟩
    else
      let dataPointConfidence := min 1 ((records.length : ℚ) / 10)
      let timeSpanConfidence := min 1 (timeSpanHours / 6)
      ⟨total / timeSpanHours, (dataPointConfidence + timeSpanConfidence) / 2⟩

/-- Shallow embedding of `QuotaPredictor.getUsageTrend`
(predictor.ts lines 185-226). -/
def getUsageTrend (state : RouterState) (now : ℚ) (provider : String) : Trend :=
  let hourMs : ℚ := 60 * 60 * 1000
  let recentRecords := state.usageHistory.filter (fun r =>
    r.provider == provider && decide (now - 4 * hourMs ≤ r.timestamp) &&
    decide (r.timestamp < now))
  let olderRecords := state.usageHistory.filter (fun r =>
    r.provider == provider && decide (now - 8 * hourMs ≤ r.timestamp) &&
    decide (r.timestamp < now - 4 * hourMs))
  if recentRecords.length < 3 ∨ olderRecords.length < 3 then .stable
  else
    let recentTotal : ℚ := totalTokens recentRecords
    let olderTotal : ℚ := totalTokens olderRecords
    if olderTotal = 0 then .stable
    else
      let ratio := recentTotal / olderTotal
      if 1.3 < ratio then .increasing
      else if ratio < 0.7 then .decreasing
      else .stable

/-- Shallow embedding of `QuotaPredictor.predict` (predictor.ts lines
35-116).  The two exhausted-branch message variants (reset date known
or not) are both modelled by `Recommendation.exhausted`. -/
def predict (state : RouterState) (now : ℚ) (provider : String) : ExhaustionPrediction :=
  match state.quotas.lookup provider with
  | none => ⟨provider, false, none, none, 0, .stable, .noTracking⟩
  | some quota =>
    if quota.limit ≤ quota.used then
      ⟨provider, true, some now, some 0, 1, .stable, .exhausted⟩
    else
      let usageRate := calculateUsageRate state now provider
      let trend := getUsageTrend state now provider
      if usageRate.tokensPerHour = 0 then
        ⟨provider, false, none, none, 0.5, .stable, .noRecentUsage⟩
      else
        let remaining := (quota.limit : ℚ) - (quota.used : ℚ)
        let hoursUntilExhaustion := remaining / usageRate.tokensPerHour
        let predictedExhaustionTime := now + hoursUntilExhaustion * 60 * 60 * 1000
        let willExhaustBeforeReset :=
          decide (quota.nextReset = 0) || decide (predictedExhaustionTime < quota.nextReset)
        let recommendation : Recommendation :=
          if !willExhaustBeforeReset then .resetsBeforeExhaustion
          else if hoursUntilExhaustion < 1 then .critical
          else if hoursUntilExhaustion < 6 then .warning
          else if hoursUntilExhaustion < 24 then .monitor
          else .onTrack
        { provider := provider
          willExhaust := willExhaustBeforeReset
          predictedExhaustionTime :=
            if willExhaustBeforeReset then some predictedExhaustionTime else none
          hoursUntilExhaustion :=
            if willExhaustBeforeReset then some hoursUntilExhaustion else none
          confidence := usageRate.confidence
          trend := trend
          recommendation := recommendation }

/-- Shallow embedding of `QuotaTracker.getAverageDailyUsage`
(tracker.ts lines 244-264); `Date.now()` is the explicit `now`. -/
def getAverageDailyUsage (state : RouterState) (now : ℚ) (provider : String)
    (days : ℚ) : ℚ :=
  let windowMs := days * 24 * 60 * 60 * 1000
  let cutoff := now - windowMs
  let records := recordsInWindow state.usageHistory provider cutoff
  if records.isEmpty then 0
  else
    let total : ℚ := totalTokens records
    let firstRecord := earliestTimestamp records
    let daysCovered := max 1 ((now - firstRecord) / (24 * 60 * 60 * 1000))
    total / daysCovered

/-! ### Cron-schedule run-frequency estimation
(`src/optimization/analyzer.ts`, `estimateRunFrequency`) -/

/-- JS `String.prototype.split` with a single-character separator
(keeps empty segments, as JS does). -/
def splitCharAux (sep : Char) : List Char → List Char → List String
  | [], acc => [⟨acc.reverse⟩]
  | c :: rest, acc =>
    if c = sep then ⟨acc.reverse⟩ :: splitCharAux sep rest []
    else splitCharAux sep rest (c :: acc)

/-- JS `s.split(sep)` for a one-character separator. -/
def jsSplit (s : String) (sep : Char) : List String :=
  splitCharAux sep s.data []

/-- Numeric value of a decimal digit character. -/
def digitVal (c : Char) : ℕ := c.toNat - 48

/-- `parseInt` on a nonempty all-digit capture. -/
def parseDigits (l : List Char) : ℕ :=
  l.foldl (fun acc c => acc * 10 + digitVal c) 0

/-- The JS regex search `.match(/\*\/(\d+)/)`: first occurrence of
`*/` immediately followed by at least one digit; the capture is the
maximal digit run. -/
def findStarSlashNum : List Char → Option ℕ
  | [] => none
  | c :: rest =>
    match c, rest with
    | '*', '/' :: d :: rest2 =>
      if d.isDigit then some (parseDigits ((d :: rest2).takeWhile Char.isDigit))
      else findStarSlashNum rest
    | _, _ => findStarSlashNum rest

/-- Shallow embedding of `estimateRunFrequency` (analyzer.ts lines
294-329).  The JS division `1440/0` for a (degenerate) `*/0` pattern
is `Infinity`; in `ℚ` it is `0` — no claim touches that input. -/
def estimateRunFrequency (schedule : String) : ℚ :=
  let parts := jsSplit schedule ' '
  if parts.length ≠ 5 then 1
  else
    let minute := parts.getD 0 ""
    let hour := parts.getD 1 ""
    match findStarSlashNum minute.data with
    | some n => 1440 / (n : ℚ)
    | none =>
      match findStarSlashNum hour.data with
      | some n => 24 / (n : ℚ)
      | none =>
        if hour ≠ "*" then ((jsSplit hour ',').length : ℚ)
        else if minute ≠ "*" then ((jsSplit minute ',').length : ℚ) * 24
        else 24 * 60

/-! ### Capability scoring (`src/capabilities/scorer.ts`) -/

inductive ProviderTier
  | premium | standard | budget | free | local
deriving DecidableEq

/-- A full six-dimension capability vector.  Every literal of
`DEFAULT_MODEL_SCORES` in the source specifies all six dimensions, so
the `Partial` record type is modelled as a total structure. -/
structure CapabilityScores where
  coding : ℚ
  reasoning : ℚ
  creative : ℚ
  instruction : ℚ
  context : ℚ
  speed : ℚ
deriving DecidableEq

/-- Dimension lookup, `caps.scores[cap]`. -/
def CapabilityScores.get (s : CapabilityScores) : TaskCapability → ℚ
  | .coding => s.coding
  | .reasoning => s.reasoning
  | .creative => s.creative
  | .instruction => s.instruction
  | .context => s.context
  | .speed => s.speed

/-- The `DEFAULT_MODEL_SCORES` table (scorer.ts lines 410-550), in
source (insertion) order, as iterated by `Object.entries`. -/
def DEFAULT_MODEL_SCORES : List (String × CapabilityScores) :=
  [("claude-opus-4-5", ⟨0.95, 0.98, 0.92, 0.95, 0.90, 0.50⟩),
   ("claude-opus-4-6", ⟨0.96, 0.98, 0.93, 0.96, 0.92, 0.55⟩),
   ("claude-sonnet-4-5", ⟨0.90, 0.92, 0.88, 0.90, 0.88, 0.75⟩),
   ("claude-haiku-4-5", ⟨0.75, 0.78, 0.72, 0.80, 0.70, 0.95⟩),
   ("gpt-5.3-codex", ⟨0.97, 0.95, 0.85, 0.92, 0.95, 0.60⟩),
   ("gpt-5.2", ⟨0.94, 0.93, 0.88, 0.90, 0.92, 0.65⟩),
   ("gpt-5-mini", ⟨0.82, 0.80, 0.75, 0.82, 0.80, 0.90⟩),
   ("gpt-5-nano", ⟨0.70, 0.68, 0.65, 0.72, 0.65, 0.98⟩),
   ("gpt-4o", ⟨0.88, 0.88, 0.85, 0.88, 0.85, 0.80⟩),
   ("gpt-4o-mini", ⟨0.78, 0.75, 0.72, 0.78, 0.72, 0.92⟩),
   ("gemini-2.5-flash", ⟨0.85, 0.83, 0.80, 0.85, 0.88, 0.85⟩),
   ("gemini-2.5-flash-lite", ⟨0.72, 0.70, 0.68, 0.72, 0.70, 0.95⟩),
   ("gemini-3-flash-preview", ⟨0.88, 0.86, 0.82, 0.88, 0.90, 0.82⟩),
   ("glm-4.7", ⟨0.65, 0.62, 0.60, 0.65, 0.75, 0.70⟩),
   ("kimi-code/kimi-for-coding", ⟨0.80, 0.75, 0.65, 0.78, 0.85, 0.72⟩),
   ("local-default", ⟨0.60, 0.55, 0.50, 0.58, 0.40, 0.98⟩)]

/-- `modelId.replace(/^[^/]+\//, "")`: drop a nonempty provider part
up to and including the first '/'. -/
def stripProviderPart (l : List Char) : List Char :=
  let pre := l.takeWhile (fun c => c ≠ '/')
  if pre.length = 0 ∨ pre.length = l.length then l
  else l.drop (pre.length + 1)

/-- JS replace of the pattern `minus, then exactly eight digits, at
end of string` (a date suffix) by the empty string. -/
def stripDateSuffix (l : List Char) : List Char :=
  let rev := l.reverse
  let digits := rev.takeWhile Char.isDigit
  if digits.length = 8 ∧ rev.getD 8 ' ' = '-' then (rev.drop 9).reverse else l

/-- JS replace of the pattern `minus, then one or more digits, at end
of string` (a version suffix) by the empty string. -/
def stripVersionSuffix (l : List Char) : List Char :=
  let rev := l.reverse
  let digits := rev.takeWhile Char.isDigit
  if 1 ≤ digits.length ∧ rev.getD digits.length ' ' = '-' then
    (rev.drop (digits.length + 1)).reverse
  else l

/-- Exact-key lookup in `DEFAULT_MODEL_SCORES`. -/
def lookupExact (modelId : String) : Option CapabilityScores :=
  (DEFAULT_MODEL_SCORES.find? (fun e => e.1 == modelId)).map (fun e => e.2)

/-- Shallow embedding of `CapabilityScorer.findDefaultScores`
(scorer.ts lines 599-626): exact match, then normalized id, then first
partial (substring either way) match. -/
def findDefaultScores (modelId : String) : Option CapabilityScores :=
  match lookupExact modelId with
  | some s => some s
  | none =>
    let normalized : String :=
      ⟨stripVersionSuffix (stripDateSuffix (stripProviderPart modelId.data))⟩
    match lookupExact normalized with
    | some s => some s
    | none =>
      (DEFAULT_MODEL_SCORES.find? (fun e =>
        jsIncludes modelId e.1 || jsIncludes e.1 modelId)).map (fun e => e.2)

/-- The uniform `0.5` default vector used when no table entry applies. -/
def uniformScores : CapabilityScores := ⟨0.5, 0.5, 0.5, 0.5, 0.5, 0.5⟩

/-- `CapabilityScorer.getCapabilities(modelId, provider)` without
manual overrides, as called by the matcher: the score vector is the
table defaults merged over the uniform 0.5 vector (every table entry
is total, so the merge is the entry itself).  The memoizing cache and
the provider id (cache key only) are transparent to this pure value. -/
def getScores (modelId : String) : CapabilityScores :=
  (findDefaultScores modelId).getD uniformScores

/-! ### Model matching (`src/capabilities/matcher.ts`, `ModelMatcher`) -/

/-- A registered provider, as consulted by `findSuitableModels`
(registry.ts `RegisteredProvider`; `config.tier` is optional). -/
structure RegisteredProvider where
  id : String
  tier : Option ProviderTier
  models : List String
  isAvailable : Bool
deriving DecidableEq

/-- Shallow embedding of `ProviderRegistry.getAvailable` (unnamed
registry source, lines 141-155): drop unavailable providers and
providers whose tracked quota has `limit > 0` and `used/limit ≥ 1`. -/
def getAvailable (registry : List RegisteredProvider) (state : RouterState) :
    List RegisteredProvider :=
  registry.filter (fun p =>
    p.isAvailable &&
    (match state.quotas.lookup p.id with
     | some quota =>
       !(decide (0 < quota.limit) && decide (1 ≤ (quota.used : ℚ) / (quota.limit : ℚ)))
     | none => true))

/-- An entry of the `findSuitableModels` result (matcher.ts
`ModelMatch`; the explanatory `reason` string is presentation-only and
omitted). -/
structure ModelMatch where
  model : String
  provider : String
  score : ℚ
  tier : ProviderTier
deriving DecidableEq

/-- Index in the tie-break array
`["local", "free", "budget", "standard", "premium"]`. -/
def tierOrderIndex : ProviderTier → ℕ
  | .local => 0
  | .free => 1
  | .budget => 2
  | .standard => 3
  | .premium => 4

/-- Shallow embedding of `ModelMatcher.scoreModelForTask` (matcher.ts
lines 278-306).  A present-but-empty secondary list would produce `NaN`
in JS (`0/0`); in `ℚ` the same expression is `0` — no claim touches
that degenerate input. -/
def scoreModelForTask (caps : CapabilityScores) (task : TaskProfile) : ℚ :=
  let base := caps.get task.primaryCapability * 0.6
  let s1 :=
    match task.secondaryCapabilities with
    | none => base
    | some secs => base + ((secs.map caps.get).sum / (secs.length : ℚ)) * 0.2
  let s2 := if task.contextLength = .long ∧ caps.context < 0.7 then s1 * 0.8 else s1
  let s3 := if task.latencySensitive then s2 * (0.8 + caps.speed * 0.2) else s2
  min 1 s3

/-- The unsorted `matches` array built by the provider/model loops of
`findSuitableModels` (matcher.ts lines 231-261). -/
def candidateMatches (task : TaskProfile) (registry : List RegisteredProvider)
    (state : RouterState) (preferredTiers : Option (List ProviderTier)) :
    List ModelMatch :=
  (getAvailable registry state).flatMap (fun provider =>
    if (match preferredTiers with
        | some ts => decide (ts.length ≠ 0) && !(ts.contains (provider.tier.getD .standard))
        | none => false) then []
    else
      provider.models.filterMap (fun modelId =>
        let score := scoreModelForTask (getScores modelId) task
        if task.qualityThreshold ≤ score then
          some ⟨modelId, provider.id, score, provider.tier.getD .standard⟩
        else none))

/-- The sort comparator of `findSuitableModels` (matcher.ts lines
264-270) as a total preorder: higher score first, ties by ascending
cost-tier index. -/
def matchRel (a b : ModelMatch) : Prop :=
  b.score < a.score ∨ (a.score = b.score ∧ tierOrderIndex a.tier ≤ tierOrderIndex b.tier)

instance : DecidableRel matchRel := fun a b => by
  unfold matchRel; infer_instance

instance : IsTotal ModelMatch matchRel where
  total a b := by
    unfold matchRel
    rcases lt_trichotomy a.score b.score with h | h | h
    · exact Or.inr (Or.inl h)
    · rcases Nat.le_total (tierOrderIndex a.tier) (tierOrderIndex b.tier) with ht | ht
      · exact Or.inl (Or.inr ⟨h, ht⟩)
      · exact Or.inr (Or.inr ⟨h.symm, ht⟩)
    · exact Or.inl (Or.inl h)

instance : IsTrans ModelMatch matchRel where
  trans a b c hab hbc := by
    unfold matchRel at *
    rcases hab with h1 | ⟨he1, ht1⟩ <;> rcases hbc with h2 | ⟨he2, ht2⟩
    · exact Or.inl (h2.trans h1)
    · exact Or.inl (he2 ▸ h1)
    · exact Or.inl (h2.trans_eq he1.symm)
    · exact Or.inr ⟨he1.trans he2, ht1.trans ht2⟩

/-- Shallow embedding of `ModelMatcher.findSuitableModels` (matcher.ts
lines 226-273): collect qualifying provider×model matches, then sort
with the score/tier comparator (JS `Array.prototype.sort` is stable,
as is `List.insertionSort`). -/
def findSuitableModels (task : TaskProfile) (registry : List RegisteredProvider)
    (state : RouterState) (preferredTiers : Option (List ProviderTier)) :
    List ModelMatch :=
  (candidateMatches task registry state preferredTiers).insertionSort matchRel

/-! ### Optimization actions and the applier
(`src/optimization/applier.ts`, `ActionApplier`) -/

inductive ActionType
  | change_model | add_fallback | remove_fallback | split_job | route_to_local
deriving DecidableEq

inductive TargetType
  | cron | agent
deriving DecidableEq

structure ActionTarget where
  type : TargetType
  id : String
deriving DecidableEq

/-- The `changes` payload of an action.  The source stores one untyped
object and casts it per handler; actions built by the optimizer always
carry the shape matching their type, so the payload is modelled as an
inductive keyed by that shape. -/
inductive ActionChanges
  | fromTo (from_ to_ : String)
  | fallback (model : String) (position : Option ℕ)
  | removeFb (model : String)
  | splits (originalId : String) (parts : List (String × String))
  | toLocal (localModel : String)
deriving DecidableEq

structure OptimizationAction where
  type : ActionType
  target : ActionTarget
  reversible : Bool
  changes : ActionChanges
deriving DecidableEq

inductive ActionStatus
  | applied | failed | skipped
deriving DecidableEq

/-- `ActionResult`; `rollbackInfo` is only ever set to a `{from, to}`
pair by the source, modelled as an optional pair. -/
structure ActionResult where
  action : OptimizationAction
  status : ActionStatus
  rollbackInfo : Option (String × String)
deriving DecidableEq

/-- A cron job as stored in `jobs.json` (only the fields the applier
reads or writes). -/
structure StoredCronJob where
  id : String
  model : String
deriving DecidableEq

/-- An agent `models.json` file. -/
structure AgentModels where
  primary : String
  fallbacks : List String
deriving DecidableEq

/-- The external stores the applier mutates.  `none` models a missing
file (`existsSync` false / `readFileSync` throwing).  The cron file is
modelled in its array shape (the source also accepts `{jobs: [...]}`
and id-keyed objects, with identical per-job mutation). -/
structure Stores where
  cronJobs : Option (List StoredCronJob)
  agentFiles : List (String × AgentModels)
deriving DecidableEq

/-- `find` + in-place `job.model = to`: update the first job with the
given id, reporting whether one was found. -/
def setModelFirst (jobId to_ : String) : List StoredCronJob → Bool × List StoredCronJob
  | [] => (false, [])
  | j :: rest =>
    if j.id = jobId then (true, { j with model := to_ } :: rest)
    else
      let r := setModelFirst jobId to_ rest
      (r.1, j :: r.2)

/-- Replace an agent's models file in the store. -/
def setAgentFile (agentId : String) (m : AgentModels) :
    List (String × AgentModels) → List (String × AgentModels)
  | [] => []
  | e :: rest =>
    if e.1 = agentId then (agentId, m) :: rest else e :: setAgentFile agentId m rest

/-- Shallow embedding of `ActionApplier.changeCronModel` (applier.ts
lines 115-187).  The action echoed in the result is rebuilt by the
source with an empty description; the rebuilt action is passed in
here as `act`. -/
def changeCronModel (dryRun : Bool) (st : Stores) (act : OptimizationAction)
    (jobId from_ to_ : String) : ActionResult × Stores :=
  match st.cronJobs with
  | none => (⟨act, .failed, none⟩, st)
  | some jobs =>
    if dryRun then (⟨act, .applied, some (from_, to_)⟩, st)
    else
      let r := setModelFirst jobId to_ jobs
      if r.1 then (⟨act, .applied, some (from_, to_)⟩, { st with cronJobs := some r.2 })
      else (⟨act, .failed, none⟩, st)

/-- Shallow embedding of `ActionApplier.changeAgentModel` (applier.ts
lines 192-245): set `primary`, unshift the old model into `fallbacks`
if absent. -/
def changeAgentModel (dryRun : Bool) (st : Stores) (act : OptimizationAction)
    (agentId from_ to_ : String) : ActionResult × Stores :=
  match st.agentFiles.lookup agentId with
  | none => (⟨act, .failed, none⟩, st)
  | some m =>
    if dryRun then (⟨act, .applied, some (from_, to_)⟩, st)
    else
      let fallbacks := if m.fallbacks.contains from_ then m.fallbacks else from_ :: m.fallbacks
      let st' := { st with agentFiles := setAgentFile agentId ⟨to_, fallbacks⟩ st.agentFiles }
      (⟨act, .applied, some (from_, to_)⟩, st')

/-- JS `Array.prototype.splice(position, 0, model)` insertion, with the
position clamped to the list length as JS does. -/
def spliceInsert (position : ℕ) (model : String) (l : List String) : List String :=
  l.insertIdx (min position l.length) model

/-- Shallow embedding of `ActionApplier.applyAddFallback` (applier.ts
lines 250-292).  Note the dry-run branch returns `applied` with no
`rollbackInfo`. -/
def applyAddFallback (dryRun : Bool) (st : Stores) (act : OptimizationAction)
    (model : String) (position : Option ℕ) : ActionResult × Stores :=
  if act.target.type ≠ .agent then (⟨act, .skipped, none⟩, st)
  else
    match st.agentFiles.lookup act.target.id with
    | none => (⟨act, .failed, none⟩, st)
    | some m =>
      if dryRun then (⟨act, .applied, none⟩, st)
      else
        if m.fallbacks.contains model then (⟨act, .applied, none⟩, st)
        else
          let m' := { m with fallbacks := spliceInsert (position.getD 0) model m.fallbacks }
          (⟨act, .applied, none⟩,
           { st with agentFiles := setAgentFile act.target.id m' st.agentFiles })

/-- Shallow embedding of `ActionApplier.applyRemoveFallback`
(applier.ts lines 297-327).  The dry-run check precedes the file read,
so a missing file still yields `applied` in preview; in live mode the
read of a missing file throws and is caught as a failure. -/
def applyRemoveFallback (dryRun : Bool) (st : Stores) (act : OptimizationAction)
    (model : String) : ActionResult × Stores :=
  if act.target.type ≠ .agent then (⟨act, .skipped, none⟩, st)
  else if dryRun then (⟨act, .applied, none⟩, st)
  else
    match st.agentFiles.lookup act.target.id with
    | none => (⟨act, .failed, none⟩, st)
    | some m =>
      let m' := { m with fallbacks := m.fallbacks.filter (fun f => f ≠ model) }
      (⟨act, .applied, none⟩,
       { st with agentFiles := setAgentFile act.target.id m' st.agentFiles })

/-- Shallow embedding of `ActionApplier.applySplitJob` (applier.ts
lines 332-357): preview reports `applied`; live execution is
unimplemented and reports `skipped`. -/
def applySplitJob (dryRun : Bool) (st : Stores) (act : OptimizationAction) :
    ActionResult × Stores :=
  if dryRun then (⟨act, .applied, none⟩, st)
  else (⟨act, .skipped, none⟩, st)

/-- Shallow embedding of `ActionApplier.applyAction` (applier.ts lines
62-90): dispatch on the action type.  A payload shape inconsistent
with the action type cannot be produced by the optimizer and is
modelled as a per-action failure. -/
def applyAction (dryRun : Bool) (st : Stores) (action : OptimizationAction) :
    ActionResult × Stores :=
  match action.type, action.changes with
  | .change_model, .fromTo from_ to_ =>
    match action.target.type with
    | .cron => changeCronModel dryRun st action action.target.id from_ to_
    | .agent => changeAgentModel dryRun st action action.target.id from_ to_
  | .add_fallback, .fallback model position =>
    applyAddFallback dryRun st action model position
  | .remove_fallback, .removeFb model =>
    applyRemoveFallback dryRun st action model
  | .split_job, .splits _ _ => applySplitJob dryRun st action
  | .route_to_local, .toLocal localModel =>
    changeCronModel dryRun st action action.target.id "current" localModel
  | _, _ => (⟨action, .failed, none⟩, st)

/-- Shallow embedding of `ActionApplier.rollback` (applier.ts lines
373-396): only an applied, reversible result with rollback info is
rolled back; the inverse action swaps the recorded from/to pair and is
applied with the dry-run flag forced to `false`.  The applier's own
`dryRun` flag is saved and restored by the source's `finally`, so
after the call it equals the `dryRun` argument below, which the body
never consults: the inner application always runs live. -/
def rollback (_dryRun : Bool) (st : Stores) (result : ActionResult) : Bool × Stores :=
  if result.status ≠ .applied ∨ result.rollbackInfo = none ∨ result.action.reversible = false
  then (false, st)
  else
    match result.rollbackInfo with
    | none => (false, st)
    | some (from_, to_) =>
      let rollbackAction := { result.action with changes := .fromTo to_ from_ }
      let r := applyAction false st rollbackAction
      (r.1.status = ActionStatus.applied, r.2)

/-! ### Workload analysis and plan generation
(`src/optimization/analyzer.ts`, `src/optimization/optimizer.ts`) -/

inductive Complexity
  | simple | moderate | complex
deriving DecidableEq

/-- A proposed sub-task (types.ts `SplitOpportunity`). -/
structure SplitOpportunity where
  subtask : String
  description : String
  suggestedModel : String
  complexity : Complexity
  estimatedTokens : ℚ
deriving DecidableEq

/-- The complexity-indicator keyword list of `inferComplexity`
(matcher.ts lines 168-180). -/
def complexIndicators : List String :=
  ["multi-step", "complex", "detailed", "comprehensive", "in-depth",
   "first,", "then,", "after that", "step 1", "step 2", "finally"]

/-- Shallow embedding of `inferComplexity` (matcher.ts lines 161-194). -/
def inferComplexity (prompt : String) : Complexity :=
  let lower := jsToLowerCase prompt
  let indicatorScore := countSignals complexIndicators lower
  let complexityScore :=
    if 3000 < prompt.length then indicatorScore + 2
    else if 1000 < prompt.length then indicatorScore + 1
    else indicatorScore
  if 3 ≤ complexityScore then .complex
  else if 1 ≤ complexityScore then .moderate
  else .simple

/-- The character class `[,\s]` of the step patterns (the JS `\s`
whitespace class, restricted to the ASCII whitespace the prompts
use). -/
def isCommaOrSpace (c : Char) : Bool := c = ',' || c.isWhitespace

/-- The character class `[:\s]` of the `step N` pattern. -/
def isColonOrSpace (c : Char) : Bool := c = ':' || c.isWhitespace

/-- Captures of the JS `matchAll` of a step pattern
`lit[,\s]+([^.]+)` (global; the `i` flag is moot on the lowercased
input): at each position where the literal occurs, require one or more
comma/whitespace characters, capture the maximal following run of
non-period characters, and continue scanning after the capture.  When
the separator run is followed directly by a period the engine would
backtrack to a one-character all-separator capture, which the caller's
`length > 20` filter always discards; the model treats it as no match.
The fuel argument (instantiated with the list length, an upper bound
on the number of scan steps, each of which consumes at least one
character) makes the recursion structural. -/
def stepCapturesAux (lit : List Char) : ℕ → List Char → List (List Char)
  | 0, _ => []
  | _, [] => []
  | fuel + 1, c :: rest =>
    if startsWithChars lit (c :: rest) then
      let after := (c :: rest).drop lit.length
      let sep := after.takeWhile isCommaOrSpace
      let afterSep := after.drop sep.length
      let cap := afterSep.takeWhile (fun ch => ch ≠ '.')
      if 1 ≤ sep.length ∧ 1 ≤ cap.length then
        cap :: stepCapturesAux lit fuel (afterSep.drop cap.length)
      else stepCapturesAux lit fuel rest
    else stepCapturesAux lit fuel rest

/-- Captures of `matchAll` for a literal-prefixed step pattern. -/
def stepCaptures (lit : List Char) (l : List Char) : List (List Char) :=
  stepCapturesAux lit l.length l

/-- Captures of `matchAll` for `step \d+[:\s]+([^.]+)` (same scanning
conventions as `stepCapturesAux`). -/
def stepNumCapturesAux : ℕ → List Char → List (List Char)
  | 0, _ => []
  | _, [] => []
  | fuel + 1, c :: rest =>
    if startsWithChars "step ".data (c :: rest) then
      let after := (c :: rest).drop 5
      let digits := after.takeWhile Char.isDigit
      let after2 := after.drop digits.length
      let sep := after2.takeWhile isColonOrSpace
      let afterSep := after2.drop sep.length
      let cap := afterSep.takeWhile (fun ch => ch ≠ '.')
      if 1 ≤ digits.length ∧ 1 ≤ sep.length ∧ 1 ≤ cap.length then
        cap :: stepNumCapturesAux fuel (afterSep.drop cap.length)
      else stepNumCapturesAux fuel rest
    else stepNumCapturesAux fuel rest

def stepNumCaptures (l : List Char) : List (List Char) :=
  stepNumCapturesAux l.length l

/-- Captures of `matchAll` for `\d+\.\s+([^.]+)` (same scanning
conventions as `stepCapturesAux`). -/
def numDotCapturesAux : ℕ → List Char → List (List Char)
  | 0, _ => []
  | _, [] => []
  | fuel + 1, c :: rest =>
    if c.isDigit then
      let digits := (c :: rest).takeWhile Char.isDigit
      let after := (c :: rest).drop digits.length
      match after with
      | '.' :: after2 =>
        let sep := after2.takeWhile Char.isWhitespace
        let afterSep := after2.drop sep.length
        let cap := afterSep.takeWhile (fun ch => ch ≠ '.')
        if 1 ≤ sep.length ∧ 1 ≤ cap.length then
          cap :: numDotCapturesAux fuel (afterSep.drop cap.length)
        else numDotCapturesAux fuel rest
      | _ => numDotCapturesAux fuel rest
    else numDotCapturesAux fuel rest

def numDotCaptures (l : List Char) : List (List Char) :=
  numDotCapturesAux l.length l

/-- The step-pattern loop of `identifySplitOpportunities` (analyzer.ts
lines 162-184): the six patterns are scanned in source order; every
capture longer than 20 characters yields one 500-token opportunity. -/
def stepPatternOpportunities (lower : List Char) : List SplitOpportunity :=
  (stepCaptures "first".data lower ++ stepCaptures "then".data lower ++
   stepCaptures "after that".data lower ++ stepCaptures "finally".data lower ++
   stepNumCaptures lower ++ numDotCaptures lower).filterMap
    (fun cap =>
      if 20 < cap.length then
        some ⟨⟨cap.take 50 ++ "...".data⟩,
              ⟨"Identified sub-step: \"".data ++ cap.take 100 ++ "\"".data⟩,
              "gemini-2.5-flash-lite", .simple, 500⟩
      else none)

/-- Shallow embedding of `identifySplitOpportunities` (analyzer.ts
lines 150-208): nothing for simple prompts; step-pattern captures
longer than 20 characters, then the read+write and summarize+analyze
functional-area checks, capped at 5 opportunities. -/
def identifySplitOpportunities (prompt : String) (complexity : Complexity) :
    List SplitOpportunity :=
  if complexity = .simple then []
  else
    let lower := jsToLowerCase prompt
    let opportunities :=
      stepPatternOpportunities lower.data ++
      (if jsIncludes lower "read" && jsIncludes lower "write" then
        [⟨"Data retrieval phase", "Separate read operations from write operations",
          "gemini-2.5-flash-lite", .simple, 300⟩]
       else []) ++
      (if jsIncludes lower "summarize" && jsIncludes lower "analyze" then
        [⟨"Summary generation", "Simple summarization can use cheaper model",
          "gpt-5-nano", .simple, 400⟩]
       else [])
    opportunities.take 5

/-- A cron job as read by the analyzer (only fields the embedded
computation consumes). -/
structure CronJobInput where
  id : String
  name : Option String
  schedule : String
  model : Option String
  prompt : Option String
deriving DecidableEq

/-- A run-log record (analyzer.ts `RunRecord`); all fields optional in
the source, `success` kept optional here since `r.success !== false`
distinguishes `undefined` from `false`. -/
structure RunRecord where
  timestamp : ℚ
  tokensIn : Option ℕ
  tokensOut : Option ℕ
  durationMs : Option ℚ
  success : Option Bool
deriving DecidableEq

/-- `history.filter(r => r.success !== false)`. -/
def successfulRuns (history : List RunRecord) : List RunRecord :=
  history.filter (fun r => r.success ≠ some false)

/-- Mean of `(tokensIn ?? 0) + (tokensOut ?? 0)` over successful runs,
default 500 when there are none (analyzer.ts lines 232-238). -/
def avgTokensPerRunOf (history : List RunRecord) : ℚ :=
  let s := successfulRuns history
  if s.length = 0 then 500
  else ((s.map (fun r => ((r.tokensIn.getD 0 : ℕ) + (r.tokensOut.getD 0 : ℕ) : ℚ))).sum) /
    (s.length : ℚ)

/-- `history.length > 0 ? successes/total : 1` (analyzer.ts 246-247). -/
def successRateOf (history : List RunRecord) : ℚ :=
  if history.length = 0 then 1
  else ((successfulRuns history).length : ℚ) / (history.length : ℚ)

/-- `complexity !== "complex" && successRate > 0.9` (analyzer.ts 253). -/
def canDowngradeOf (complexity : Complexity) (successRate : ℚ) : Bool :=
  complexity ≠ .complex && decide (0.9 < successRate)

/-- The static downgrade ladder `suggestCheaperModel` (analyzer.ts
lines 334-347). -/
def suggestCheaperModel (currentModel : String) : String :=
  match currentModel with
  | "claude-opus-4-5" => "claude-sonnet-4-5"
  | "claude-opus-4-6" => "claude-sonnet-4-5"
  | "claude-sonnet-4-5" => "claude-haiku-4-5"
  | "gpt-5.3-codex" => "gpt-5.2"
  | "gpt-5.2" => "gpt-5-mini"
  | "gpt-5-mini" => "gpt-5-nano"
  | "gemini-3-flash-preview" => "gemini-2.5-flash"
  | "gemini-2.5-flash" => "gemini-2.5-flash-lite"
  | _ => "gemini-2.5-flash-lite"

/-- The analyzer's per-job result (types.ts `CronJobAnalysis`; fields
not consumed downstream are omitted). -/
structure CronJobAnalysis where
  id : String
  name : String
  schedule : String
  currentModel : String
  promptComplexity : Complexity
  detectedCapabilities : List TaskCapability
  avgTokensPerRun : ℚ
  successRate : ℚ
  runFrequency : ℚ
  canDowngrade : Bool
  suggestedModel : Option String
  estimatedSavings : ℚ
  canSplit : Bool
  splitOpportunities : List SplitOpportunity
deriving DecidableEq

/-- Shallow embedding of the per-job body of `analyzeCronJobs`
(analyzer.ts lines 220-285).  Loading jobs and run history is file
I/O; the job record and its history are explicit inputs.  The split
opportunities are computed internally from the prompt, as in the
source. -/
def analyzeCronJob (job : CronJobInput) (history : List RunRecord) : CronJobAnalysis :=
  let prompt := job.prompt.getD ""
  let taskProfile := classifyPrompt prompt
  let complexity := inferComplexity prompt
  let avgTokensPerRun := avgTokensPerRunOf history
  let successRate := successRateOf history
  let runFrequency := estimateRunFrequency job.schedule
  let canDowngrade := canDowngradeOf complexity successRate
  let splitOpps := identifySplitOpportunities prompt complexity
  { id := job.id
    name := job.name.getD job.id
    schedule := job.schedule
    currentModel := job.model.getD "default"
    promptComplexity := complexity
    detectedCapabilities := [taskProfile.primaryCapability]
    avgTokensPerRun := avgTokensPerRun
    successRate := successRate
    runFrequency := runFrequency
    canDowngrade := canDowngrade
    suggestedModel :=
      if canDowngrade then some (suggestCheaperModel (job.model.getD "default")) else none
    estimatedSavings := if canDowngrade then avgTokensPerRun * 0.3 else 0
    canSplit := decide (0 < splitOpps.length)
    splitOpportunities := splitOpps }

/-- An agent analysis (types.ts `AgentAnalysis`; fields not consumed
by candidate creation are omitted).  The source hard-codes
`avgSessionTokens = 0` (a TODO); the field is kept general here so the
candidate formula is stated for any value. -/
structure AgentAnalysis where
  id : String
  name : String
  primaryModel : String
  fallbackChain : List String
  activeSessionCount : ℕ
  avgSessionTokens : ℚ
  dominantTaskTypes : List TaskCapability
  canUseCheaperDefault : Bool
  suggestedPrimaryModel : Option String
deriving DecidableEq

inductive QualityRisk
  | none | low | medium | high
deriving DecidableEq

/-- An optimization candidate (types.ts `OptimizationCandidate`; the
`splitPlan` carries the same `estimatedSavings` as the analysis and is
not separately modelled). -/
structure OptimizationCandidate where
  type : TargetType
  id : String
  name : String
  currentModel : String
  complexity : Complexity
  estimatedTokensPerRun : ℚ
  canDowngrade : Bool
  suggestedModel : Option String
  canSplit : Bool
  estimatedSavings : ℚ
  qualityRisk : QualityRisk
deriving DecidableEq

/-- Shallow embedding of `Optimizer.assessQualityRisk` (optimizer.ts
lines 252-269). -/
def assessQualityRisk (complexity : Complexity) (successRate : ℚ) : QualityRisk :=
  if complexity = .simple ∧ 0.95 ≤ successRate then .none
  else if complexity = .simple ∧ 0.85 ≤ successRate then .low
  else if complexity = .moderate ∧ 0.9 ≤ successRate then .low
  else if complexity = .moderate ∧ 0.8 ≤ successRate then .medium
  else .high

/-- Shallow embedding of `Optimizer.createCronCandidate` (optimizer.ts
lines 105-141): the candidate copies the analysis's
`estimatedSavings`. -/
def createCronCandidate (job : CronJobAnalysis) : OptimizationCandidate :=
  { type := .cron
    id := job.id
    name := job.name
    currentModel := job.currentModel
    complexity := job.promptComplexity
    estimatedTokensPerRun := job.avgTokensPerRun
    canDowngrade := job.canDowngrade
    suggestedModel := job.suggestedModel
    canSplit := job.canSplit
    estimatedSavings := job.estimatedSavings
    qualityRisk := assessQualityRisk job.promptComplexity job.successRate }

/-- Shallow embedding of `Optimizer.createAgentCandidate` (optimizer.ts
lines 146-161). -/
def createAgentCandidate (agent : AgentAnalysis) : OptimizationCandidate :=
  { type := .agent
    id := agent.id
    name := agent.name
    currentModel := agent.primaryModel
    complexity := .moderate
    estimatedTokensPerRun := agent.avgSessionTokens
    canDowngrade := agent.canUseCheaperDefault
    suggestedModel := agent.suggestedPrimaryModel
    canSplit := false
    estimatedSavings := agent.avgSessionTokens * 0.2
    qualityRisk := .low }

/-- The candidate list built by `Optimizer.generatePlan` (optimizer.ts
lines 41-70) from given analyses (the analyses themselves are produced
by the analyzer from the external job/agent stores). -/
def planCandidates (crons : List CronJobAnalysis) (agents : List AgentAnalysis) :
    List OptimizationCandidate :=
  (crons.filter (fun j => j.canDowngrade || j.canSplit)).map createCronCandidate ++
    (agents.filter (fun a => a.canUseCheaperDefault)).map createAgentCandidate

/-- Sum of the sub-task token estimates of a split plan (what the spec
claims a split-only candidate's savings equal). -/
def splitEstimateSum (opps : List SplitOpportunity) : ℚ :=
  (opps.map (fun o => o.estimatedTokens)).sum

/-! ### Reset scheduling (`src/quota/reset.ts`) -/

/-- The civil fields of a JS `Date` (local-time view); `month` is
0-based as in JS.  A value is *normalized* when `0 ≤ month < 12` and
`1 ≤ day ≤ daysInMonth`. -/
structure DateTime where
  year : ℤ
  month : ℤ
  day : ℤ
  hour : ℤ
  minute : ℤ
  second : ℤ
  msec : ℤ
deriving DecidableEq

def isLeapYear (y : ℤ) : Bool :=
  (y % 4 == 0 && y % 100 != 0) || y % 400 == 0

/-- Length of 0-based month `m` of year `y` (expects `0 ≤ m < 12`). -/
def daysInMonth (y m : ℤ) : ℤ :=
  if m = 1 then (if isLeapYear y then 29 else 28)
  else if m = 3 ∨ m = 5 ∨ m = 8 ∨ m = 10 then 30
  else 31

/-- Carry an out-of-range 0-based month into `[0, 11]`, adjusting the
year, as JS `Date` normalization does. -/
def normMonth (y m : ℤ) : ℤ × ℤ :=
  (y + m.ediv 12, m.emod 12)

/-- Day-overflow normalization (carry into following months); the fuel
bounds the loop, 48 months covering every value the embedded code
constructs. -/
def normDayUp : ℕ → ℤ → ℤ → ℤ → ℤ × ℤ × ℤ
  | 0, y, m, d => (y, m, d)
  | fuel+1, y, m, d =>
    if daysInMonth y m < d then
      let ym := normMonth y (m + 1)
      normDayUp fuel ym.1 ym.2 (d - daysInMonth y m)
    else (y, m, d)

/-- Day-underflow normalization (borrow from preceding months). -/
def normDayDown : ℕ → ℤ → ℤ → ℤ → ℤ × ℤ × ℤ
  | 0, y, m, d => (y, m, d)
  | fuel+1, y, m, d =>
    if d < 1 then
      let ym := normMonth y (m - 1)
      normDayDown fuel ym.1 ym.2 (d + daysInMonth ym.1 ym.2)
    else (y, m, d)

/-- Normalize civil year/month/day as JS `Date` arithmetic does. -/
def normalizeYMD (y m d : ℤ) : ℤ × ℤ × ℤ :=
  let ym := normMonth y m
  if d < 1 then normDayDown 48 ym.1 ym.2 d else normDayUp 48 ym.1 ym.2 d

/-- JS `date.setDate(d)` (normalizing; e.g. day 31 of February rolls
into March, day 0 is the last day of the previous month). -/
def jsSetDate (dt : DateTime) (d : ℤ) : DateTime :=
  let r := normalizeYMD dt.year dt.month d
  { dt with year := r.1, month := r.2.1, day := r.2.2 }

/-- JS `date.setHours(h, 0, 0, 0)` as used by the source (the
schedule's hour is within `[0, 23]` by config validation, so no hour
normalization is needed). -/
def jsSetHours (dt : DateTime) (h : ℤ) : DateTime :=
  { dt with hour := h, minute := 0, second := 0, msec := 0 }

/-- JS `date.setMonth(m)`: set the month keeping the day, normalizing
any day overflow into the following month. -/
def jsSetMonth (dt : DateTime) (m : ℤ) : DateTime :=
  let r := normalizeYMD dt.year m dt.day
  { dt with year := r.1, month := r.2.1, day := r.2.2 }

/-- Days since 1970-01-01 of a normalized civil date (standard
era-based formula); `m` is the 0-based month. -/
def daysFromCivil (y m d : ℤ) : ℤ :=
  let m1 := m + 1
  let yAdj := if m1 ≤ 2 then y - 1 else y
  let era := yAdj.fdiv 400
  let yoe := yAdj - era * 400
  let mp := (m1 + 9).emod 12
  let doy := (153 * mp + 2).ediv 5 + d - 1
  let doe := yoe * 365 + yoe.ediv 4 - yoe.ediv 100 + doy
  era * 146097 + doe - 719468

/-- Epoch milliseconds of a normalized `DateTime` (the value JS `Date`
comparisons and `getTime()` use). -/
def toMs (dt : DateTime) : ℤ :=
  daysFromCivil dt.year dt.month dt.day * 86400000 +
    dt.hour * 3600000 + dt.minute * 60000 + dt.second * 1000 + dt.msec

/-- JS `getDay()`: day of week, 0 = Sunday (1970-01-01 was Thursday). -/
def jsGetDay (dt : DateTime) : ℤ :=
  (daysFromCivil dt.year dt.month dt.day + 4).emod 7

inductive ResetScheduleType
  | daily | weekly | monthly | fixed
deriving DecidableEq

/-- A reset schedule (types.ts `ResetSchedule`); the fixed date is
modelled already parsed (string parsing is external), `none` fields
model `undefined`. -/
structure ResetSchedule where
  type : ResetScheduleType
  dayOfWeek : Option ℤ
  dayOfMonth : Option ℤ
  fixedDate : Option DateTime
  hour : Option ℤ
  timezone : Option String
deriving DecidableEq

/-- The static named-offset table of `applyTimezone` (reset.ts lines
135-144). -/
def timezoneOffsets : List (String × ℤ) :=
  [("America/New_York", -5), ("America/Chicago", -6), ("America/Denver", -7),
   ("America/Los_Angeles", -8), ("EST", -5), ("CST", -6), ("MST", -7), ("PST", -8)]

/-- Shallow embedding of `applyTimezone` (reset.ts lines 129-156) on
epoch milliseconds; the host clock is modelled as UTC
(`getTimezoneOffset() = 0`).  Unset, `"UTC"` and unrecognized zones
pass through unmodified. -/
def applyTimezoneMs (ms : ℤ) (timezone : Option String) : ℤ :=
  match timezone with
  | none => ms
  | some tz =>
    if tz = "UTC" then ms
    else
      match timezoneOffsets.lookup tz with
      | some offset => ms + offset * 3600000
      | none => ms

/-- Shallow embedding of `calculateDailyReset` (reset.ts lines 33-45,
before the timezone adjustment). -/
def calculateDailyReset (now : DateTime) (schedule : ResetSchedule) : DateTime :=
  let hour := schedule.hour.getD 0
  let next := jsSetHours now hour
  if toMs next ≤ toMs now then jsSetDate next (next.day + 1) else next

/-- Shallow embedding of `calculateWeeklyReset` (reset.ts lines 50-72,
before the timezone adjustment). -/
def calculateWeeklyReset (now : DateTime) (schedule : ResetSchedule) : DateTime :=
  let dayOfWeek := schedule.dayOfWeek.getD 0
  let hour := schedule.hour.getD 0
  let daysUntil0 := dayOfWeek - jsGetDay now
  let next_daysUntil : DateTime × ℤ :=
    if daysUntil0 < 0 then (now, daysUntil0 + 7)
    else if daysUntil0 = 0 then
      let next1 := jsSetHours now hour
      if toMs next1 ≤ toMs now then (next1, 7) else (next1, 0)
    else (now, daysUntil0)
  let next2 := jsSetDate next_daysUntil.1 (next_daysUntil.1.day + next_daysUntil.2)
  jsSetHours next2 hour

/-- Shallow embedding of `calculateMonthlyReset` (reset.ts lines
77-98, before the timezone adjustment): set the configured day (JS
normalization may roll into the next month), roll a month forward if
the slot has passed, then clamp with `setDate(0)` when the resulting
day is not the configured one. -/
def calculateMonthlyReset (now : DateTime) (schedule : ResetSchedule) : DateTime :=
  let dayOfMonth := schedule.dayOfMonth.getD 1
  let hour := schedule.hour.getD 0
  let next1 := jsSetHours (jsSetDate now dayOfMonth) hour
  let next2 := if toMs next1 ≤ toMs now then jsSetMonth next1 (next1.month + 1) else next1
  if next2.day ≠ dayOfMonth then jsSetDate next2 0 else next2

/-- Shallow embedding of `calculateFixedReset` (reset.ts lines
103-122): the literal configured date, or tomorrow at midnight when it
is missing (the unparsable-date fallback is the same tomorrow value;
string parsing is external). -/
def calculateFixedReset (now : DateTime) (schedule : ResetSchedule) : DateTime :=
  match schedule.fixedDate with
  | some d => d
  | none => jsSetHours (jsSetDate now (now.day + 1)) 0

/-- Shallow embedding of `calculateNextReset` (reset.ts lines 15-28)
returning epoch milliseconds; `now` is the explicit current time.  The
recurring variants pass through `applyTimezone`; `fixed` does not, as
in the source. -/
def calculateNextResetMs (schedule : ResetSchedule) (now : DateTime) : ℤ :=
  match schedule.type with
  | .daily => applyTimezoneMs (toMs (calculateDailyReset now schedule)) schedule.timezone
  | .weekly => applyTimezoneMs (toMs (calculateWeeklyReset now schedule)) schedule.timezone
  | .monthly => applyTimezoneMs (toMs (calculateMonthlyReset now schedule)) schedule.timezone
  | .fixed => toMs (calculateFixedReset now schedule)

/-! ### Concrete instances used by counterexamples and witnesses -/

/-- A tracked provider with room left and an empty ledger. -/
def stateC1 : RouterState :=
  { quotas := [("anthropic", ⟨0, 100, 0, 0⟩)], usageHistory := [] }

/-- A provider whose quota counter has `limit = 0`. -/
def stateC9 : RouterState :=
  { quotas := [("zai", ⟨5, 0, 0, 0⟩)], usageHistory := [] }

/-- A 7-day-window state whose only usage is 2 hours old. -/
def stateC8 : RouterState :=
  { quotas := [], usageHistory := [⟨-7200000, "anthropic", "m", 100, 50⟩] }

/-- A registry with a single local provider serving `local-default`. -/
def registryC3 : List RegisteredProvider :=
  [⟨"local", some .local, ["local-default"], true⟩]

/-- A task whose primary capability is `context` at threshold 0.43,
with `speed` secondary. -/
def taskC3 : TaskProfile := ⟨.context, some [.speed], .short, false, 0.43⟩

/-- A router state tracking nothing. -/
def stateEmpty : RouterState := ⟨[], []⟩

/-- Two providers offering the same model at different tiers (equal
scores, so the sort tie-break decides their order). -/
def registryW : List RegisteredProvider :=
  [⟨"provA", some .premium, ["local-default"], true⟩,
   ⟨"provB", some .local, ["local-default"], true⟩]

/-- The match produced for `provA` (premium tier). -/
def matchA : ModelMatch :=
  ⟨"local-default", "provA", scoreModelForTask (getScores "local-default") taskC3, .premium⟩

/-- The match produced for `provB` (local tier). -/
def matchB : ModelMatch :=
  ⟨"local-default", "provB", scoreModelForTask (getScores "local-default") taskC3, .local⟩

/-- Stores with one cron job and one agent file. -/
def storesC4 : Stores :=
  ⟨some [⟨"job1", "claude-opus-4-5"⟩], [("main", ⟨"claude-opus-4-5", []⟩)]⟩

/-- An `add_fallback` action against the existing agent. -/
def addFbC4 : OptimizationAction :=
  ⟨.add_fallback, ⟨.agent, "main"⟩, true, .fallback "claude-opus-4-5" (some 0)⟩

/-- A `change_model` action against the existing cron job. -/
def cmC4 : OptimizationAction :=
  ⟨.change_model, ⟨.cron, "job1"⟩, true, .fromTo "claude-opus-4-5" "claude-sonnet-4-5"⟩

/-- A `remove_fallback` action against the existing agent. -/
def rmFbC4 : OptimizationAction :=
  ⟨.remove_fallback, ⟨.agent, "main"⟩, true, .removeFb "gpt-4o"⟩

/-- A `split_job` action against the existing cron job. -/
def splitC4 : OptimizationAction :=
  ⟨.split_job, ⟨.cron, "job1"⟩, false, .splits "job1" [("part-1", "gpt-5-nano")]⟩

/-- An applied, reversible result carrying rollback info. -/
def resultC10 : ActionResult :=
  ⟨cmC4, .applied, some ("claude-opus-4-5", "claude-sonnet-4-5")⟩

/-- A failed result (not eligible for rollback). -/
def failedC10 : ActionResult :=
  ⟨cmC4, .failed, some ("claude-opus-4-5", "claude-sonnet-4-5")⟩

/-- A job whose prompt is complex (not downgradeable) but splittable:
the `then,` step capture exceeds 20 characters and the prompt contains
both `read` and `write`. -/
def jobC6 : CronJobInput :=
  ⟨"job6", none, "0 0 * * *", some "claude-opus-4-5",
   some "This is a multi-step task. First, read the input files. Then, write a comprehensive summary of everything."⟩

/-- A downgradeable job (no prompt, no history). -/
def jobC6b : CronJobInput := ⟨"job6b", none, "0 0 * * *", some "claude-opus-4-5", none⟩

/-- An agent analysis with nonzero session tokens. -/
def agentC6 : AgentAnalysis :=
  ⟨"main", "main", "claude-sonnet-4-5", [], 2, 800, [.instruction], true,
   some "claude-haiku-4-5"⟩

/-- 2023-02-28T12:00:00 (a non-leap February, 28 days). -/
def nowC2 : DateTime := ⟨2023, 1, 28, 12, 0, 0, 0⟩

/-- A monthly reset rule on day 31 at hour 0, no timezone. -/
def monthly31 : ResetSchedule := ⟨.monthly, none, some 31, none, some 0, none⟩

/-! ### Helper lemmas -/

theorem le_foldl_min_timestamp (c : ℚ) :
    ∀ (rs : List UsageRecord) (t : ℚ), c ≤ t → (∀ r ∈ rs, c ≤ r.timestamp) →
      c ≤ rs.foldl (fun acc x => min acc x.timestamp) t := by
  intro rs
  induction rs with
  | nil => intro t ht _; exact ht
  | cons r rs ih =>
    intro t ht hall
    simp only [List.foldl_cons]
    exact ih _ (le_min ht (hall r (List.mem_cons_self r rs)))
      (fun x hx => hall x (List.mem_cons_of_mem r hx))

theorem le_earliestTimestamp (c : ℚ) (l : List UsageRecord)
    (hne : l ≠ []) (hall : ∀ r ∈ l, c ≤ r.timestamp) : c ≤ earliestTimestamp l := by
  cases l with
  | nil => exact absurd rfl hne
  | cons r rs =>
    exact le_foldl_min_timestamp c rs r.timestamp (hall r (List.mem_cons_self r rs))
      (fun x hx => hall x (List.mem_cons_of_mem r hx))

theorem mem_candidateMatches_score (task : TaskProfile)
    (registry : List RegisteredProvider) (state : RouterState)
    (preferredTiers : Option (List ProviderTier)) (m : ModelMatch)
    (hm : m ∈ candidateMatches task registry state preferredTiers) :
    task.qualityThreshold ≤ m.score := by
  simp only [candidateMatches, List.mem_flatMap] at hm
  obtain ⟨p, _, hmp⟩ := hm
  split at hmp
  · cases hmp
  · simp only [List.mem_filterMap] at hmp
    obtain ⟨modelId, _, heq⟩ := hmp
    by_cases hc : task.qualityThreshold ≤ scoreModelForTask (getScores modelId) task
    · rw [if_pos hc] at heq
      cases heq
      exact hc
    · rw [if_neg hc] at heq
      cases heq

theorem getScores_localDefault :
    getScores "local-default" = ⟨0.60, 0.55, 0.50, 0.58, 0.40, 0.98⟩ := rfl

theorem score_localDefault_taskC3 :
    scoreModelForTask (getScores "local-default") taskC3 = 0.436 := by
  rw [getScores_localDefault]
  simp only [scoreModelForTask, taskC3, CapabilityScores.get, List.map, List.sum_cons,
    List.sum_nil, List.length_cons, List.length_nil]
  rw [if_neg (by simp)]
  rw [if_neg (by simp)]
  rw [min_eq_right (by norm_num)]
  norm_num

theorem taskC3_le_score :
    taskC3.qualityThreshold ≤ scoreModelForTask (getScores "local-default") taskC3 := by
  rw [score_localDefault_taskC3]
  show (0.43:ℚ) ≤ 0.436
  norm_num

theorem findSuitableModels_registryW_eval :
    findSuitableModels taskC3 registryW stateEmpty none = [matchB, matchA] := by
  have hfaA : (if taskC3.qualityThreshold ≤ scoreModelForTask (getScores "local-default") taskC3
      then some (⟨"local-default", "provA",
        scoreModelForTask (getScores "local-default") taskC3, .premium⟩ : ModelMatch)
      else none) = some matchA := if_pos taskC3_le_score
  have hfaB : (if taskC3.qualityThreshold ≤ scoreModelForTask (getScores "local-default") taskC3
      then some (⟨"local-default", "provB",
        scoreModelForTask (getScores "local-default") taskC3, .local⟩ : ModelMatch)
      else none) = some matchB := if_pos taskC3_le_score
  have hcand : candidateMatches taskC3 registryW stateEmpty none = [matchA, matchB] := by
    calc candidateMatches taskC3 registryW stateEmpty none
        = (["local-default"].filterMap fun modelId =>
            if taskC3.qualityThreshold ≤ scoreModelForTask (getScores modelId) taskC3
            then some ⟨modelId, "provA",
              scoreModelForTask (getScores modelId) taskC3, ProviderTier.premium⟩
            else none) ++
          ((["local-default"].filterMap fun modelId =>
            if taskC3.qualityThreshold ≤ scoreModelForTask (getScores modelId) taskC3
            then some ⟨modelId, "provB",
              scoreModelForTask (getScores modelId) taskC3, ProviderTier.local⟩
            else none) ++ []) := rfl
      _ = [matchA, matchB] := by
          simp only [List.filterMap_cons, hfaA, hfaB, List.filterMap_nil, List.append_nil,
            List.cons_append, List.nil_append]
  have hrel : ¬ matchRel matchA matchB := by
    unfold matchRel
    push_neg
    exact ⟨le_refl _, fun _ => by decide⟩
  rw [findSuitableModels, hcand]
  simp only [List.insertionSort, List.orderedInsert]
  rw [if_neg hrel]

theorem changeCronModel_dry (st : Stores) (act : OptimizationAction) (jobId f t : String) :
    (changeCronModel true st act jobId f t).2 = st := by
  unfold changeCronModel
  cases st.cronJobs <;> simp

theorem changeAgentModel_dry (st : Stores) (act : OptimizationAction) (agentId f t : String) :
    (changeAgentModel true st act agentId f t).2 = st := by
  unfold changeAgentModel
  cases st.agentFiles.lookup agentId <;> simp

theorem applyAddFallback_dry (st : Stores) (act : OptimizationAction)
    (m : String) (p : Option ℕ) : (applyAddFallback true st act m p).2 = st := by
  unfold applyAddFallback
  split
  · rfl
  · cases st.agentFiles.lookup act.target.id <;> simp

theorem applyRemoveFallback_dry (st : Stores) (act : OptimizationAction) (m : String) :
    (applyRemoveFallback true st act m).2 = st := by
  unfold applyRemoveFallback
  split
  · rfl
  · simp

/-! ### Claim theorems -/

/-- C1 (counterexample): with a tracked provider at `used < limit` and
an empty usage history, `predict` reports `willExhaust = false` but
`confidence = 0.5`, not `0` as the claim states. -/
theorem predict_zero_history_counterexample :
    (predict stateC1 0 "anthropic").willExhaust = false ∧
    (predict stateC1 0 "anthropic").confidence = 0.5 ∧ (0.5 : ℚ) ≠ 0 :=
  ⟨rfl, rfl, by norm_num⟩

/-- C1 (amended): for every tracked provider with `used < limit` whose
usage history contains no records for that provider, `predict` returns
`willExhaust = false` and `confidence = 0.5` (the zero-rate branch of
predictor.ts lines 68-76 hard-codes 0.5). -/
theorem predict_zero_history_confidence
    (state : RouterState) (now : ℚ) (provider : String) (q : QuotaEntry)
    (hq : state.quotas.lookup provider = some q)
    (hlt : q.used < q.limit)
    (hnone : ∀ r ∈ state.usageHistory, r.provider ≠ provider) :
    (predict state now provider).willExhaust = false ∧
    (predict state now provider).confidence = 0.5 := by
  have hfilter : recordsInWindow state.usageHistory provider (now - 24 * 60 * 60 * 1000) = [] := by
    refine List.filter_eq_nil_iff.mpr (fun r hr => ?_)
    simp only [Bool.and_eq_true, beq_iff_eq, decide_eq_true_eq, not_and]
    intro h
    exact absurd h (hnone r hr)
  have hrate : calculateUsageRate state now provider = ⟨0, 0⟩ := by
    simp only [calculateUsageRate, hfilter, List.isEmpty_nil, if_true]
  simp only [predict, hq, Nat.not_le.mpr hlt, if_neg, hrate]
  norm_num

/-- C1 witness: the amended theorem applied at a concrete provider
with empty history. -/
theorem predict_zero_history_confidence_witness :
    (predict stateC1 0 "anthropic").willExhaust = false ∧
    (predict stateC1 0 "anthropic").confidence = 0.5 :=
  predict_zero_history_confidence stateC1 0 "anthropic" ⟨0, 100, 0, 0⟩ rfl
    (by decide) (by intro r hr; cases hr)

/-- C2 (code bug exhibit): the monthly reset rule `dayOfMonth = 31,
hour = 0` evaluated at 2023-02-28T12:00 clamps to 2023-02-28T00:00 —
twelve hours in the past — because the `setDate(0)` clamp lands on the
current day after its time-of-day slot has already passed, violating
the strictly-in-the-future guarantee. -/
theorem calculateNextReset_monthly_clamp_past :
    calculateNextResetMs monthly31 nowC2 < toMs nowC2 ∧
    calculateNextResetMs monthly31 nowC2 = toMs ⟨2023, 1, 28, 0, 0, 0, 0⟩ := by
  decide

/-- C3 (counterexample): `local-default` scores 0.40 on the `context`
primary capability — below the 0.43 threshold of `taskC3` — yet it
appears in `findSuitableModels`' results, because the composite score
(0.436, boosted by the `speed` secondary) passes the filter. -/
theorem findSuitableModels_primary_below_threshold_counterexample :
    (getScores "local-default").get taskC3.primaryCapability < taskC3.qualityThreshold ∧
    (findSuitableModels taskC3 registryC3 stateEmpty none).map (fun m => m.model) =
      ["local-default"] := by
  have hfa : (if taskC3.qualityThreshold ≤ scoreModelForTask (getScores "local-default") taskC3
      then some (⟨"local-default", "local",
        scoreModelForTask (getScores "local-default") taskC3, .local⟩ : ModelMatch)
      else none) =
      some ⟨"local-default", "local",
        scoreModelForTask (getScores "local-default") taskC3, .local⟩ :=
    if_pos taskC3_le_score
  have hcand : candidateMatches taskC3 registryC3 stateEmpty none =
      [⟨"local-default", "local",
        scoreModelForTask (getScores "local-default") taskC3, .local⟩] := by
    calc candidateMatches taskC3 registryC3 stateEmpty none
        = (["local-default"].filterMap fun modelId =>
            if taskC3.qualityThreshold ≤ scoreModelForTask (getScores modelId) taskC3
            then some ⟨modelId, "local",
              scoreModelForTask (getScores modelId) taskC3, ProviderTier.local⟩
            else none) ++ [] := rfl
      _ = [⟨"local-default", "local",
            scoreModelForTask (getScores "local-default") taskC3, .local⟩] := by
          simp only [List.filterMap_cons, hfa, List.filterMap_nil, List.append_nil]
  refine ⟨?_, ?_⟩
  · rw [getScores_localDefault]
    show (0.40 : ℚ) < (0.43 : ℚ)
    norm_num
  · rw [findSuitableModels, hcand]
    rfl

/-- C3 (amended): every match returned by `findSuitableModels` has
composite score ≥ `task.qualityThreshold` (the primary-capability
score alone may be below it), and among returned matches with equal
composite score the cheaper cost tier
(local < free < budget < standard < premium) comes first. -/
theorem findSuitableModels_quality_and_tiebreak (task : TaskProfile)
    (registry : List RegisteredProvider) (state : RouterState)
    (preferredTiers : Option (List ProviderTier)) :
    (∀ m ∈ findSuitableModels task registry state preferredTiers,
      task.qualityThreshold ≤ m.score) ∧
    (∀ i j : Fin (findSuitableModels task registry state preferredTiers).length,
      i < j →
      ((findSuitableModels task registry state preferredTiers).get i).score =
        ((findSuitableModels task registry state preferredTiers).get j).score →
      tierOrderIndex ((findSuitableModels task registry state preferredTiers).get i).tier ≤
        tierOrderIndex ((findSuitableModels task registry state preferredTiers).get j).tier) := by
  constructor
  · intro m hm
    rw [findSuitableModels, List.mem_insertionSort] at hm
    exact mem_candidateMatches_score task registry state preferredTiers m hm
  · intro i j hij heq
    have hsorted : List.Sorted matchRel (findSuitableModels task registry state preferredTiers) :=
      List.sorted_insertionSort matchRel _
    have hrel := hsorted.rel_get_of_lt hij
    rcases hrel with hlt | ⟨_, hle⟩
    · exact absurd heq.symm hlt.ne
    · exact hle

/-- C3 witness: the theorem applied to a two-provider registry with
equal scores; the `local`-tier match is a member above threshold and
precedes the `premium`-tier one. -/
theorem findSuitableModels_quality_and_tiebreak_witness :
    (matchB ∈ findSuitableModels taskC3 registryW stateEmpty none ∧
      taskC3.qualityThreshold ≤ matchB.score) ∧
    tierOrderIndex ProviderTier.local ≤ tierOrderIndex ProviderTier.premium := by
  have hmem : matchB ∈ findSuitableModels taskC3 registryW stateEmpty none := by
    rw [findSuitableModels_registryW_eval]; exact List.mem_cons_self _ _
  have hlen : (findSuitableModels taskC3 registryW stateEmpty none).length = 2 := by
    rw [findSuitableModels_registryW_eval]; rfl
  have h0 : (0 : ℕ) < (findSuitableModels taskC3 registryW stateEmpty none).length := by omega
  have h1 : (1 : ℕ) < (findSuitableModels taskC3 registryW stateEmpty none).length := by omega
  have hg0 : (findSuitableModels taskC3 registryW stateEmpty none).get ⟨0, h0⟩ = matchB :=
    (List.get_of_eq findSuitableModels_registryW_eval ⟨0, h0⟩).trans rfl
  have hg1 : (findSuitableModels taskC3 registryW stateEmpty none).get ⟨1, h1⟩ = matchA :=
    (List.get_of_eq findSuitableModels_registryW_eval ⟨1, h1⟩).trans rfl
  have htie := (findSuitableModels_quality_and_tiebreak taskC3 registryW stateEmpty none).2
    ⟨0, h0⟩ ⟨1, h1⟩ (by exact Fin.mk_lt_mk.mpr Nat.zero_lt_one)
    (by rw [hg0, hg1]; rfl)
  rw [hg0, hg1] at htie
  exact ⟨⟨hmem,
    (findSuitableModels_quality_and_tiebreak taskC3 registryW stateEmpty none).1 matchB hmem⟩,
    htie⟩

/-- C4 (counterexample): a preview-mode `add_fallback` against an
existing agent file is reported `applied` with **no** rollbackInfo
(applier.ts line 270 returns only `{action, status}`), contradicting
the claim that every preview action carries rollbackInfo.  The store
is untouched. -/
theorem applyAction_preview_counterexample :
    (applyAction true storesC4 addFbC4).1.status = .applied ∧
    (applyAction true storesC4 addFbC4).1.rollbackInfo = none ∧
    (applyAction true storesC4 addFbC4).2 = storesC4 :=
  ⟨rfl, rfl, rfl⟩

/-- C4 (amended): preview-mode `applyAction` never mutates the
external stores, for any action; a preview `change_model` whose store
file exists (cron jobs file for a cron target, agent models file for
an agent target) is reported `applied` carrying rollbackInfo with the
from/to pair, and so is `route_to_local` (with the `"current"`
placeholder as `from`); preview `add_fallback` on an existing agent
file, `remove_fallback` on an agent target (no file check precedes
the dry-run branch) and `split_job` are reported `applied` but
without rollbackInfo. -/
theorem applyAction_preview (st : Stores) (a : OptimizationAction) :
    ((applyAction true st a).2 = st) ∧
    (∀ f t, a.type = .change_model → a.changes = .fromTo f t → a.target.type = .cron →
      st.cronJobs ≠ none →
      (applyAction true st a).1.status = .applied ∧
      (applyAction true st a).1.rollbackInfo = some (f, t)) ∧
    (∀ f t, a.type = .change_model → a.changes = .fromTo f t → a.target.type = .agent →
      st.agentFiles.lookup a.target.id ≠ none →
      (applyAction true st a).1.status = .applied ∧
      (applyAction true st a).1.rollbackInfo = some (f, t)) ∧
    (∀ lm, a.type = .route_to_local → a.changes = .toLocal lm →
      st.cronJobs ≠ none →
      (applyAction true st a).1.status = .applied ∧
      (applyAction true st a).1.rollbackInfo = some ("current", lm)) ∧
    (∀ m p, a.type = .add_fallback → a.changes = .fallback m p → a.target.type = .agent →
      st.agentFiles.lookup a.target.id ≠ none →
      (applyAction true st a).1.status = .applied ∧
      (applyAction true st a).1.rollbackInfo = none) ∧
    (∀ m, a.type = .remove_fallback → a.changes = .removeFb m → a.target.type = .agent →
      (applyAction true st a).1.status = .applied ∧
      (applyAction true st a).1.rollbackInfo = none) ∧
    (∀ oid parts, a.type = .split_job → a.changes = .splits oid parts →
      (applyAction true st a).1.status = .applied ∧
      (applyAction true st a).1.rollbackInfo = none) := by
  refine ⟨?_, ?_, ?_, ?_, ?_, ?_, ?_⟩
  · obtain ⟨ty, ⟨tt, id⟩, rev, ch⟩ := a
    cases ty <;> cases ch <;> cases tt <;>
      first
        | exact changeCronModel_dry _ _ _ _ _
        | exact changeAgentModel_dry _ _ _ _ _
        | exact applyAddFallback_dry _ _ _ _
        | exact applyRemoveFallback_dry _ _ _
        | rfl
  · intro f t hty hch htt hcj
    obtain ⟨ty, ⟨tt, id⟩, rev, ch⟩ := a
    simp only at hty hch htt
    subst hty; subst hch; subst htt
    obtain ⟨jobs, hj⟩ := Option.ne_none_iff_exists'.mp hcj
    simp only [applyAction, changeCronModel, hj]
    exact ⟨rfl, rfl⟩
  · intro f t hty hch htt hlk
    obtain ⟨ty, ⟨tt, id⟩, rev, ch⟩ := a
    simp only at hty hch htt
    subst hty; subst hch; subst htt
    obtain ⟨mf, hm⟩ := Option.ne_none_iff_exists'.mp hlk
    simp only [applyAction, changeAgentModel, hm]
    exact ⟨rfl, rfl⟩
  · intro lm hty hch hcj
    obtain ⟨ty, ⟨tt, id⟩, rev, ch⟩ := a
    simp only at hty hch
    subst hty; subst hch
    obtain ⟨jobs, hj⟩ := Option.ne_none_iff_exists'.mp hcj
    simp only [applyAction, changeCronModel, hj]
    exact ⟨rfl, rfl⟩
  · intro m p hty hch htt hlk
    obtain ⟨ty, ⟨tt, id⟩, rev, ch⟩ := a
    simp only at hty hch htt
    subst hty; subst hch; subst htt
    obtain ⟨mf, hm⟩ := Option.ne_none_iff_exists'.mp hlk
    simp only [applyAction, applyAddFallback, hm]
    exact ⟨rfl, rfl⟩
  · intro m hty hch htt
    obtain ⟨ty, ⟨tt, id⟩, rev, ch⟩ := a
    simp only at hty hch htt
    subst hty; subst hch; subst htt
    exact ⟨rfl, rfl⟩
  · intro oid parts hty hch
    obtain ⟨ty, ⟨tt, id⟩, rev, ch⟩ := a
    simp only at hty hch
    subst hty; subst hch
    exact ⟨rfl, rfl⟩

/-- C4 witness: the amended theorem at a concrete preview
`change_model` (no mutation, `applied`, rollbackInfo populated), a
preview `remove_fallback` and a preview `split_job` (both `applied`
without rollbackInfo). -/
theorem applyAction_preview_witness :
    (applyAction true storesC4 cmC4).2 = storesC4 ∧
    (applyAction true storesC4 cmC4).1.status = .applied ∧
    (applyAction true storesC4 cmC4).1.rollbackInfo =
      some ("claude-opus-4-5", "claude-sonnet-4-5") ∧
    (applyAction true storesC4 rmFbC4).1.status = .applied ∧
    (applyAction true storesC4 rmFbC4).1.rollbackInfo = none ∧
    (applyAction true storesC4 splitC4).1.status = .applied ∧
    (applyAction true storesC4 splitC4).1.rollbackInfo = none := by
  refine ⟨(applyAction_preview storesC4 cmC4).1, ?_, ?_, ?_, ?_, ?_, ?_⟩
  · exact ((applyAction_preview storesC4 cmC4).2.1 _ _ rfl rfl rfl
      (by simp [storesC4])).1
  · exact ((applyAction_preview storesC4 cmC4).2.1 _ _ rfl rfl rfl
      (by simp [storesC4])).2
  · exact ((applyAction_preview storesC4 rmFbC4).2.2.2.2.2.1 _ rfl rfl rfl).1
  · exact ((applyAction_preview storesC4 rmFbC4).2.2.2.2.2.1 _ rfl rfl rfl).2
  · exact ((applyAction_preview storesC4 splitC4).2.2.2.2.2.2 _ _ rfl rfl).1
  · exact ((applyAction_preview storesC4 splitC4).2.2.2.2.2.2 _ _ rfl rfl).2

/-- C5 (counterexample): for `"list"` the simple bucket is the unique
highest scorer with a single hit, and `classifyPrompt` yields
threshold 0.7 (the untouched initial value), not the 0.6 the claim
states for this case. -/
theorem classifyPrompt_default_counterexample :
    simpleScoreOf "list" = 1 ∧ codingScoreOf "list" = 0 ∧ reasoningScoreOf "list" = 0 ∧
    creativeScoreOf "list" = 0 ∧ (classifyPrompt "list").primaryCapability = .instruction ∧
    (classifyPrompt "list").qualityThreshold = 0.7 ∧ (0.7 : ℚ) ≠ 0.6 :=
  ⟨rfl, rfl, rfl, rfl, rfl, rfl, by norm_num⟩

/-- C5 (amended): the highest-scoring bucket picks the capability and
threshold (coding 0.8, reasoning 0.75, creative 0.6); `simple` wins
(instruction, 0.4) only with ≥ 2 hits; with all buckets at zero the
default is (instruction, 0.6); but when `simple` is the sole maximal
bucket with fewer than 2 hits the result is (instruction, **0.7**).
`classifyPrompt "Summarize and list the open items"` yields
instruction at 0.4. -/
theorem classifyPrompt_bucket_rule :
    (∀ p : String,
      (classifyPrompt p).primaryCapability =
        (classifyCapThreshold (codingScoreOf p) (reasoningScoreOf p)
          (creativeScoreOf p) (simpleScoreOf p)).1 ∧
      (classifyPrompt p).qualityThreshold =
        (classifyCapThreshold (codingScoreOf p) (reasoningScoreOf p)
          (creativeScoreOf p) (simpleScoreOf p)).2) ∧
    (∀ c r cr s : ℕ,
      (maxBucket c r cr s = 0 →
        classifyCapThreshold c r cr s = (.instruction, 0.6)) ∧
      (s = maxBucket c r cr s → 2 ≤ s →
        classifyCapThreshold c r cr s = (.instruction, 0.4)) ∧
      (c = maxBucket c r cr s → ¬(s = maxBucket c r cr s ∧ 2 ≤ s) → maxBucket c r cr s ≠ 0 →
        classifyCapThreshold c r cr s = (.coding, 0.8)) ∧
      (r = maxBucket c r cr s → c ≠ maxBucket c r cr s → ¬(s = maxBucket c r cr s ∧ 2 ≤ s) →
        maxBucket c r cr s ≠ 0 →
        classifyCapThreshold c r cr s = (.reasoning, 0.75)) ∧
      (cr = maxBucket c r cr s → c ≠ maxBucket c r cr s → r ≠ maxBucket c r cr s →
        ¬(s = maxBucket c r cr s ∧ 2 ≤ s) → maxBucket c r cr s ≠ 0 →
        classifyCapThreshold c r cr s = (.creative, 0.6)) ∧
      (s = maxBucket c r cr s → s < 2 → maxBucket c r cr s ≠ 0 → c ≠ maxBucket c r cr s →
        r ≠ maxBucket c r cr s → cr ≠ maxBucket c r cr s →
        classifyCapThreshold c r cr s = (.instruction, 0.7))) ∧
    classifyPrompt "Summarize and list the open items" =
      { primaryCapability := .instruction, secondaryCapabilities := none,
        contextLength := .short, latencySensitive := false, qualityThreshold := 0.4 } := by
  refine ⟨fun p => ⟨rfl, rfl⟩, fun c r cr s => ?_, rfl⟩
  refine ⟨?_, ?_, ?_, ?_, ?_, ?_⟩ <;> intros <;>
    simp only [classifyCapThreshold] <;> split_ifs <;> first | rfl | omega

/-- C5 witness: the amended theorem applied at bucket scores
`(0, 0, 0, 1)` (simple uniquely maximal with one hit), yielding the
0.7 default. -/
theorem classifyPrompt_bucket_rule_witness :
    classifyCapThreshold 0 0 0 1 = (.instruction, 0.7) ∧
    classifyPrompt "Summarize and list the open items" =
      { primaryCapability := .instruction, secondaryCapabilities := none,
        contextLength := .short, latencySensitive := false, qualityThreshold := 0.4 } := by
  refine ⟨?_, classifyPrompt_bucket_rule.2.2⟩
  exact (classifyPrompt_bucket_rule.2.1 0 0 0 1).2.2.2.2.2
    (by decide) (by decide) (by decide) (by decide) (by decide) (by decide)

/-- C6 (counterexample): `jobC6`'s complex prompt yields two split
opportunities (a 500-token step capture and the 300-token read/write
split), so the analysis is split-only (`canSplit`, not
`canDowngrade`), yet its candidate carries `estimatedSavings = 0`, not
the 800-token sum of its sub-task estimates. -/
theorem candidate_savings_split_counterexample :
    (analyzeCronJob jobC6 []).canSplit = true ∧
    (analyzeCronJob jobC6 []).canDowngrade = false ∧
    (createCronCandidate (analyzeCronJob jobC6 [])).estimatedSavings = 0 ∧
    splitEstimateSum (analyzeCronJob jobC6 []).splitOpportunities = 800 ∧
    (0 : ℚ) ≠ 800 := by
  refine ⟨rfl, rfl, rfl, ?_, by norm_num⟩
  show (500 : ℚ) + (300 + 0) = 800
  norm_num

/-- C6 (amended): a downgradeable cron candidate's estimatedSavings is
0.3 × avgTokensPerRun; a non-downgradeable (in particular split-only)
cron candidate's is 0; an agent candidate's is
0.2 × avgSessionTokens. -/
theorem candidate_savings_formulas (job : CronJobInput) (history : List RunRecord)
    (agent : AgentAnalysis) :
    ((analyzeCronJob job history).canDowngrade = true →
      (createCronCandidate (analyzeCronJob job history)).estimatedSavings =
        avgTokensPerRunOf history * 0.3) ∧
    ((analyzeCronJob job history).canDowngrade = false →
      (createCronCandidate (analyzeCronJob job history)).estimatedSavings = 0) ∧
    (createAgentCandidate agent).estimatedSavings = agent.avgSessionTokens * 0.2 := by
  refine ⟨?_, ?_, rfl⟩
  · intro h
    simp only [analyzeCronJob, createCronCandidate] at h ⊢
    rw [if_pos h]
  · intro h
    simp only [analyzeCronJob, createCronCandidate] at h ⊢
    rw [if_neg (by rw [h]; exact Bool.false_ne_true)]

/-- C6 witness: the formulas at a concrete downgradeable job and a
concrete agent analysis. -/
theorem candidate_savings_formulas_witness :
    (createCronCandidate (analyzeCronJob jobC6b [])).estimatedSavings =
      avgTokensPerRunOf [] * 0.3 ∧
    (createAgentCandidate agentC6).estimatedSavings = agentC6.avgSessionTokens * 0.2 := by
  have h1 : (analyzeCronJob jobC6b []).canDowngrade = canDowngradeOf .simple 1 := rfl
  have h2 : (analyzeCronJob jobC6b []).canDowngrade = true := by
    rw [h1]
    simp only [canDowngradeOf]
    norm_num
    decide
  exact ⟨(candidate_savings_formulas jobC6b [] agentC6).1 h2,
    (candidate_savings_formulas jobC6b [] agentC6).2.2⟩

/-- C7 (counterexample): the schedule `"daily"` does not match the
recognized cron subset (it has one field, not five) and the analyzer
defaults to **1** run per day, not the claimed 1440. -/
theorem estimateRunFrequency_counterexample :
    estimateRunFrequency "daily" = 1 ∧ (1:ℚ) ≠ 24 * 60 :=
  ⟨rfl, by norm_num⟩

/-- C7 (amended): a schedule that does not split into exactly five
space-separated fields defaults to 1 run/day (once daily); among
five-field schedules the wildcard-minute/wildcard-hour fall-through
case yields 1440 (every minute). -/
theorem estimateRunFrequency_rule (s : String) :
    ((jsSplit s ' ').length ≠ 5 → estimateRunFrequency s = 1) ∧
    ((jsSplit s ' ').length = 5 → (jsSplit s ' ').getD 0 "" = "*" →
      (jsSplit s ' ').getD 1 "" = "*" → estimateRunFrequency s = 24 * 60) := by
  constructor
  · intro h
    simp only [estimateRunFrequency]
    rw [if_pos h]
  · intro h5 hmin hhour
    simp only [estimateRunFrequency]
    rw [if_neg (show ¬((jsSplit s ' ').length ≠ 5) from by simp [h5]), hmin, hhour]
    rfl

/-- C7 witness: the rule at a malformed schedule and at the all-
wildcard five-field schedule. -/
theorem estimateRunFrequency_rule_witness :
    estimateRunFrequency "not a cron" = 1 ∧ estimateRunFrequency "* * * * *" = 24 * 60 :=
  ⟨(estimateRunFrequency_rule "not a cron").1 (by decide),
   (estimateRunFrequency_rule "* * * * *").2 (by decide) (by decide) (by decide)⟩

/-- C8 (confirmed): with `days ≥ 1` and at least one in-window record
for the provider, `getAverageDailyUsage` equals totalTokens divided by
`max 1 (elapsed days since the earliest in-window record)`, and is ≥
the naive totalTokens/days average. -/
theorem getAverageDailyUsage_elapsed (state : RouterState) (now : ℚ)
    (provider : String) (days : ℚ) (hdays : 1 ≤ days)
    (hne : recordsInWindow state.usageHistory provider (now - days * 24 * 60 * 60 * 1000) ≠ []) :
    getAverageDailyUsage state now provider days =
      (totalTokens (recordsInWindow state.usageHistory provider
          (now - days * 24 * 60 * 60 * 1000)) : ℚ) /
        max 1 ((now - earliestTimestamp (recordsInWindow state.usageHistory provider
          (now - days * 24 * 60 * 60 * 1000))) / (24 * 60 * 60 * 1000)) ∧
    (totalTokens (recordsInWindow state.usageHistory provider
        (now - days * 24 * 60 * 60 * 1000)) : ℚ) / days ≤
      getAverageDailyUsage state now provider days := by
  set cutoff := now - days * 24 * 60 * 60 * 1000 with hcutoff
  set records := recordsInWindow state.usageHistory provider cutoff with hrecords
  have hempty : records.isEmpty = false := List.isEmpty_eq_false.mpr hne
  have heq : getAverageDailyUsage state now provider days =
      (totalTokens records : ℚ) /
        max 1 ((now - earliestTimestamp records) / (24 * 60 * 60 * 1000)) := by
    simp only [getAverageDailyUsage, ← hcutoff, ← hrecords, hempty, Bool.false_eq_true,
      if_false]
  refine ⟨heq, ?_⟩
  rw [heq]
  have hcle : cutoff ≤ earliestTimestamp records := by
    refine le_earliestTimestamp cutoff records hne (fun r hr => ?_)
    have := List.of_mem_filter hr
    simp only [Bool.and_eq_true, decide_eq_true_eq] at this
    exact this.2
  have hDpos : (0:ℚ) < 24 * 60 * 60 * 1000 := by norm_num
  have helapsed : (now - earliestTimestamp records) / (24 * 60 * 60 * 1000) ≤ days := by
    rw [div_le_iff₀ hDpos]
    have : now - earliestTimestamp records ≤ now - cutoff := by linarith
    calc now - earliestTimestamp records ≤ now - cutoff := this
    _ = days * (24 * 60 * 60 * 1000) := by rw [hcutoff]; ring
  have hmaxle : max 1 ((now - earliestTimestamp records) / (24 * 60 * 60 * 1000)) ≤ days :=
    max_le hdays helapsed
  have hmaxpos : (0:ℚ) < max 1 ((now - earliestTimestamp records) / (24 * 60 * 60 * 1000)) :=
    lt_of_lt_of_le one_pos (le_max_left _ _)
  exact div_le_div_of_nonneg_left (by positivity) hmaxpos hmaxle

/-- C8 witness: the theorem over a 7-day window whose only usage is
2 hours old. -/
theorem getAverageDailyUsage_elapsed_witness :
    (1:ℚ) ≤ 7 ∧
    ((totalTokens (recordsInWindow stateC8.usageHistory "anthropic"
        (0 - 7 * 24 * 60 * 60 * 1000)) : ℚ) / 7 ≤
      getAverageDailyUsage stateC8 0 "anthropic" 7) := by
  have hne : recordsInWindow stateC8.usageHistory "anthropic"
      (0 - 7 * 24 * 60 * 60 * 1000) ≠ [] := by
    simp only [stateC8, recordsInWindow, List.filter]
    norm_num
  exact ⟨by norm_num,
    (getAverageDailyUsage_elapsed stateC8 0 "anthropic" 7 (by norm_num) hne).2⟩

/-- C9 (confirmed): a tracked provider whose counter has `limit = 0`
always takes the already-exhausted branch (`used ≥ limit` holds for
every `used`): `willExhaust = true`, zero hours until exhaustion,
confidence 1 — for any usage history. -/
theorem predict_limit_zero
    (state : RouterState) (now : ℚ) (provider : String) (q : QuotaEntry)
    (hq : state.quotas.lookup provider = some q)
    (h0 : q.limit = 0) :
    predict state now provider =
      ⟨provider, true, some now, some 0, 1, .stable, .exhausted⟩ := by
  simp only [predict, hq, h0, Nat.zero_le, if_true]

/-- C9 witness: the theorem at a provider with `limit = 0` and
`used = 5`. -/
theorem predict_limit_zero_witness :
    predict stateC9 0 "zai" = ⟨"zai", true, some 0, some 0, 1, .stable, .exhausted⟩ :=
  predict_limit_zero stateC9 0 "zai" ⟨5, 0, 0, 0⟩ rfl rfl

/-- C10 (confirmed): `rollback` returns `false` with the stores
untouched unless the result is `applied`, carries rollbackInfo and its
action is reversible; when those hold it applies the from/to-swapped
inverse through `applyAction` with the dry-run flag forced to `false`
(the applier's own flag — saved and restored — is irrelevant, so even
a preview-mode applier rolls back as a live write). -/
theorem rollback_spec (dr : Bool) (st : Stores) (result : ActionResult) :
    (¬(result.status = .applied ∧ result.rollbackInfo ≠ none ∧
        result.action.reversible = true) →
      rollback dr st result = (false, st)) ∧
    (∀ f t, result.status = .applied → result.rollbackInfo = some (f, t) →
      result.action.reversible = true →
      rollback dr st result =
        (decide ((applyAction false st
            { result.action with changes := .fromTo t f }).1.status = .applied),
         (applyAction false st
            { result.action with changes := .fromTo t f }).2)) := by
  constructor
  · intro h
    unfold rollback
    rw [if_pos]
    by_contra hc
    push_neg at hc
    obtain ⟨h1, h2, h3⟩ := hc
    exact h ⟨h1, h2, by simpa using h3⟩
  · intro f t h1 h2 h3
    unfold rollback
    rw [if_neg, h2]
    push_neg
    refine ⟨h1, ?_, by simp [h3]⟩
    rw [h2]
    exact fun hc => Option.noConfusion hc

/-- C10 witness: the theorem at a preview-mode applier (`dr = true`)
rolling back an applied reversible result, and refusing a failed
one. -/
theorem rollback_spec_witness :
    rollback true storesC4 resultC10 =
      (decide ((applyAction false storesC4
          { resultC10.action with
            changes := .fromTo "claude-sonnet-4-5" "claude-opus-4-5" }).1.status = .applied),
       (applyAction false storesC4
          { resultC10.action with
            changes := .fromTo "claude-sonnet-4-5" "claude-opus-4-5" }).2) ∧
    rollback true storesC4 failedC10 = (false, storesC4) := by
  refine ⟨(rollback_spec true storesC4 resultC10).2 _ _ rfl rfl rfl, ?_⟩
  exact (rollback_spec true storesC4 failedC10).1 (by simp [failedC10, resultC10, cmC4])

end SmartRouter
